import Mathlib

/-!
Verification of the streaming wake-word pipeline and wake/sleep session
state machine of `speak_then.js`.

The embedding models:
* `WakeWordDetector.processFrame` (the mel-frame queue, the 76-wide /
  8-hop sliding window feeding the embedding model, the 16-wide
  classifier window with its 16..32 hysteresis trim, and the confidence
  gate on the detection callback);
* the detector lifecycle (`start`, `stop`, `pause`, `resume`) and the
  `running` guard at worklet-message delivery;
* `CommandRecognizer` (`register`, the `onresult` transcript handler,
  `start` with its capability check, `stop`);
* the `SpeakThen` facade (config defaults with `||`, `wake`, `sleep`,
  `stop`, `start`, and the inactivity-timer effects).

Model-inference calls are abstracted as pure functions supplied as
parameters (`em` for the embedding model, `wm` for the classifier);
side effects (callback invocations, pause/resume, timer arming) are
reified as event lists so claims about "the callback fires exactly
once" become statements about traces.
-/

namespace SpeakThen

/-- The constant `MELSPEC_WINDOW = 76`, the mel sliding-window width (source line 5). -/
def MELSPEC_WINDOW : Nat := 76

/-- State of `WakeWordDetector`: the mel-frame FIFO queue, the embedding
vector queue, and the `running` / `initialized` flags (source lines 7-26).
`μ` is the type of one mel frame, `ε` the type of one embedding vector. -/
structure DetectorState (μ ε : Type) where
  melFrames : List μ
  embeddingBuffer : List ε
  running : Bool
  initialized : Bool
deriving DecidableEq, Repr

/-- Observable events produced while processing one audio frame:
`embRun w v` records a run of the embedding model on window `w`
producing `v`; `clsRun w s` records a run of the classifier on window
`w` producing score `s`; `detect s` records an invocation of the
detection callback with score `s` (source line 134). -/
inductive DetectorEvent (μ ε : Type) where
  | embRun (window : List μ) (v : ε)
  | clsRun (window : List ε) (score : ℚ)
  | detect (score : ℚ)
deriving DecidableEq, Repr

/-- Here `lastN l n` is JavaScript `l.slice(-n)`: the `n` most recent entries
of `l` (all of `l` when it is shorter than `n`). -/
def lastN {α : Type} (l : List α) (n : Nat) : List α :=
  l.drop (l.length - n)

/-- The classifier block of `processFrame` (source lines 119-137): when
the embedding queue holds at least 16 vectors, run the classifier `wm`
on the 16 most recent, invoke the detection callback when the score is
at least the confidence `c`, then trim the queue to its 16 most recent
entries when it exceeds 32. Returns the updated queue and the events. -/
def classifierPhase {ε : Type} {μ : Type} (wm : List ε → ℚ) (c : ℚ)
    (eb : List ε) : List ε × List (DetectorEvent μ ε) :=
  if 16 ≤ eb.length then
    let window := lastN eb 16
    let score := wm window
    let evs := DetectorEvent.clsRun window score ::
      (if c ≤ score then [DetectorEvent.detect score] else [])
    let eb2 := if 32 < eb.length then lastN eb 16 else eb
    (eb2, evs)
  else (eb, [])

/-- Fuel-indexed version of the `while (this.melFrames.length >= MELSPEC_WINDOW)`
loop of `processFrame` (source lines 103-138).  One iteration: build the
window from the 76 oldest mel frames, run the embedding model `em`,
append the result to the embedding queue, discard the 8 oldest mel
frames, then run the classifier block.  The fuel only bounds the
iteration count; `melLoop` below supplies enough fuel for the loop to
run to completion. -/
def melLoopFuel {μ ε : Type} (em : List μ → ε) (wm : List ε → ℚ) (c : ℚ) :
    Nat → List μ → List ε → List μ × List ε × List (DetectorEvent μ ε)
  | 0, mel, eb => (mel, eb, [])
  | fuel + 1, mel, eb =>
    if MELSPEC_WINDOW ≤ mel.length then
      let window := mel.take MELSPEC_WINDOW
      let v := em window
      let eb1 := eb ++ [v]
      let mel1 := mel.drop 8
      let step := classifierPhase wm c eb1
      let rest := melLoopFuel em wm c fuel mel1 step.1
      (rest.1, rest.2.1, DetectorEvent.embRun window v :: (step.2 ++ rest.2.2))
    else (mel, eb, [])

/-- The drain loop of `processFrame` run to completion: `mel.length` fuel
always suffices because every iteration discards 8 mel frames. -/
def melLoop {μ ε : Type} (em : List μ → ε) (wm : List ε → ℚ) (c : ℚ)
    (mel : List μ) (eb : List ε) : List μ × List ε × List (DetectorEvent μ ε) :=
  melLoopFuel em wm c mel.length mel eb

/-- Chunking and normalization of the spectrogram-model output (source
lines 95-101): the flat output is cut into 32-float frames (the loop
bound `i < melData.length / 32` is floating-point division, so a final
partial chunk is also emitted), each entry normalized as `x / 10 + 2`. -/
def melChunks (melData : List ℚ) : List (List ℚ) :=
  (List.range ((melData.length + 31) / 32)).map
    (fun i => ((melData.drop (i * 32)).take 32).map (fun x => x / 10 + 2))

/-- Model of `WakeWordDetector.processFrame` (source lines 88-143): run the
spectrogram model `mr` on the samples, queue the normalized mel frames,
then drain the mel queue through the embedding/classifier loop.
`processFrame` does not consult `running` — the `running` guard lives at
worklet-message delivery (`deliverFrame` below, source line 82). -/
def processFrame {ε : Type} (mr : List ℚ → List ℚ) (em : List (List ℚ) → ε)
    (wm : List ε → ℚ) (c : ℚ) (st : DetectorState (List ℚ) ε)
    (samples : List ℚ) : DetectorState (List ℚ) ε × List (DetectorEvent (List ℚ) ε) :=
  let mel0 := st.melFrames ++ melChunks (mr samples)
  let out := melLoop em wm c mel0 st.embeddingBuffer
  ({ st with melFrames := out.1, embeddingBuffer := out.2.1 }, out.2.2)

/-- The worklet message handler (source line 82):
`(e) => this.running && this.processFrame(e.data)` — a frame arriving
while the detector is not running is dropped. -/
def deliverFrame {ε : Type} (mr : List ℚ → List ℚ) (em : List (List ℚ) → ε)
    (wm : List ε → ℚ) (c : ℚ) (st : DetectorState (List ℚ) ε)
    (samples : List ℚ) : DetectorState (List ℚ) ε × List (DetectorEvent (List ℚ) ε) :=
  if st.running then processFrame mr em wm c st samples else (st, [])

/-- Model of `WakeWordDetector.pause` (source line 153): only clears `running`. -/
def DetectorState.pause {μ ε : Type} (st : DetectorState μ ε) : DetectorState μ ε :=
  { st with running := false }

/-- Model of `WakeWordDetector.resume` (source lines 154-159): clears both queues
before setting `running`. -/
def DetectorState.resume {μ ε : Type} (st : DetectorState μ ε) : DetectorState μ ε :=
  { st with melFrames := [], embeddingBuffer := [], running := true }

/-- Model of `WakeWordDetector.stop` (source lines 145-151): clears `running` and
`initialized` and releases external resources. -/
def DetectorState.stop {μ ε : Type} (st : DetectorState μ ε) : DetectorState μ ε :=
  { st with running := false, initialized := false }

/-- Error raised by a double `WakeWordDetector.start` (source line 43). -/
inductive DetectorError where
  | alreadyStarted
deriving DecidableEq, Repr

/-- Model of `WakeWordDetector.start` (source lines 41-86): throws when already
initialized, otherwise clears both queues, sets `running`, and marks the
detector initialized. -/
def DetectorState.startD {μ ε : Type} (st : DetectorState μ ε) :
    Except DetectorError (DetectorState μ ε) :=
  if st.initialized then .error .alreadyStarted
  else .ok { st with melFrames := [], embeddingBuffer := [],
                     running := true, initialized := true }

/-- A freshly constructed detector (source lines 8-26). -/
def initialDetector {μ ε : Type} : DetectorState μ ε :=
  { melFrames := [], embeddingBuffer := [], running := false, initialized := false }

/-- State of `CommandRecognizer` (source lines 162-170): the ordered
phrase registry (a `Map` keyed by lowercase phrase, each key holding the
targets in registration order), the `running` flag, and whether a
recognition session with an attached `onresult` handler exists.
`τ` is the type of a dispatch target (a DOM element in the source). -/
structure RecognizerState (τ : Type) where
  commands : List (String × List τ)
  running : Bool
  recognitionActive : Bool
deriving DecidableEq, Repr

/-- Model of `CommandRecognizer.register` (source lines 172-176): lowercase the
phrase and append the target to that key's list, creating the key (at
the end of the map's insertion order) when absent. -/
def registerCmd {τ : Type} (cmds : List (String × List τ)) (phrase : String)
    (el : τ) : List (String × List τ) :=
  let key := phrase.toLower
  if (cmds.find? (fun p => p.1 == key)).isSome then
    cmds.map (fun p => if p.1 == key then (p.1, p.2 ++ [el]) else p)
  else cmds ++ [(key, [el])]

/-- Lookup of a phrase key in the registry (`Map.get`). -/
def lookupCmd {τ : Type} (cmds : List (String × List τ)) (key : String) :
    Option (List τ) :=
  (cmds.find? (fun p => p.1 == key)).map (fun p => p.2)

/-- Helper used to model JavaScript string search:
`String.prototype.includes`: `isPre needle hay` is true when `needle`
occurs at the start of `hay`. -/
def isPre : List Char → List Char → Bool
  | [], _ => true
  | _ :: _, [] => false
  | a :: as, b :: bs => a == b && isPre as bs

/-- Model of JavaScript `hay.includes(needle)`: `needle` occurs
contiguously somewhere in `hay`. -/
def inclFrom (needle : List Char) : List Char → Bool
  | [] => isPre needle []
  | hay@(_ :: bs) => isPre needle hay || inclFrom needle bs

/-- Model of `transcript.includes(phrase)` (source line 198). -/
def strIncludes (hay needle : String) : Bool :=
  inclFrom needle.toList hay.toList

/-- Transcript normalization (source line 195): `.trim().toLowerCase()`. -/
def normalizeTranscript (t : String) : String :=
  t.trim.toLower

/-- Events produced by the `onresult` transcript handler: one dispatch
per (matched phrase, registered target) pair, plus the generic
speech-observed callback (`this.onSpeech?.(transcript)`). -/
inductive RecEvent (τ : Type) where
  | dispatch (phrase : String) (target : τ) (transcript : String)
  | speechObserved (transcript : String)
deriving DecidableEq, Repr

/-- The `for (const [phrase, elements] of this.commands)` loop of the
`onresult` handler (source lines 197-206): iterate the registry in
insertion order; for each phrase contained in the transcript, dispatch
to each of its targets in registration order. -/
def dispatchAll {τ : Type} (transcript : String) :
    List (String × List τ) → List (RecEvent τ)
  | [] => []
  | (phrase, elements) :: rest =>
    (if strIncludes transcript phrase then
       elements.map (fun el => RecEvent.dispatch phrase el transcript)
     else [])
      ++ dispatchAll transcript rest

/-- The `onresult` handler (source lines 194-209): normalize the
transcript, run the dispatch loop, then invoke the speech-observed
callback exactly once. -/
def onResult {τ : Type} (cmds : List (String × List τ)) (t : String) :
    List (RecEvent τ) :=
  let transcript := normalizeTranscript t
  dispatchAll transcript cmds ++ [RecEvent.speechObserved transcript]

/-- Transcripts are delivered through the `onresult` handler, which only
exists once `CommandRecognizer.start` has created a recognition session;
with no active session no transcript ever arrives. -/
def deliverTranscript {τ : Type} (rc : RecognizerState τ) (t : String) :
    List (RecEvent τ) :=
  if rc.recognitionActive then onResult rc.commands t else []

/-- Reified side effects of the session state machine: callback
invocations, detector pause/resume/stop, recognition start/stop, and
inactivity-timer operations. -/
inductive Effect where
  | onWake
  | onSleep
  | onError (msg : String)
  | pauseDetector
  | resumeDetector
  | detectorStopped
  | recognitionStarted
  | recognitionStopped
  | armTimer
  | clearTimer
deriving DecidableEq, Repr

/-- The error message of `CommandRecognizer.start` when the speech
capability is missing (source line 181). -/
def srUnsupportedMsg : String :=
  "Speech recognition not supported in this browser"

/-- Model of `CommandRecognizer.start` (source lines 178-230), with `sr` the
availability of `window.SpeechRecognition`: when the capability is
missing, report through the error callback and return with the state
untouched (in particular `running` is never set); otherwise create a
recognition session and set `running`. -/
def recStart {τ : Type} (sr : Bool) (rc : RecognizerState τ) :
    RecognizerState τ × List Effect :=
  if sr then
    ({ rc with running := true, recognitionActive := true },
     [Effect.recognitionStarted])
  else (rc, [Effect.onError srUnsupportedMsg])

/-- Model of `CommandRecognizer.stop` (source lines 232-235). -/
def recStop {τ : Type} (rc : RecognizerState τ) : RecognizerState τ :=
  { rc with running := false, recognitionActive := false }

/-- The `Sleeping`/`Awake` session states (source line 251; initial
state `"sleeping"`). -/
inductive SessionState where
  | sleeping
  | awake
deriving DecidableEq, Repr

/-- State of the `SpeakThen` facade (source lines 238-263): session
state, the `started` flag, whether the inactivity timer is armed, and
the owned detector and recognizer. -/
structure STState (μ ε τ : Type) where
  state : SessionState
  started : Bool
  timerArmed : Bool
  det : DetectorState μ ε
  recog : RecognizerState τ
deriving DecidableEq, Repr

/-- Model of `SpeakThen.wake` (source lines 292-299): a no-op when already awake;
otherwise transition to awake, pause the detector, invoke `onWake`,
start command recognition (which may instead report a capability error),
and arm the inactivity timer. `sr` is speech-capability availability. -/
def wakeST {μ ε τ : Type} (sr : Bool) (st : STState μ ε τ) :
    STState μ ε τ × List Effect :=
  if st.state = SessionState.awake then (st, [])
  else
    let recOut := recStart sr st.recog
    ({ st with state := SessionState.awake, det := st.det.pause,
               recog := recOut.1, timerArmed := true },
     [Effect.pauseDetector, Effect.onWake] ++ recOut.2 ++ [Effect.armTimer])

/-- Model of `SpeakThen.sleep` (source lines 306-312): a no-op when already
sleeping; otherwise transition to sleeping, stop command recognition,
invoke `onSleep`, and resume the detector (clearing its queues). -/
def sleepST {μ ε τ : Type} (st : STState μ ε τ) : STState μ ε τ × List Effect :=
  if st.state = SessionState.sleeping then (st, [])
  else
    ({ st with state := SessionState.sleeping, recog := recStop st.recog,
               det := st.det.resume },
     [Effect.recognitionStopped, Effect.onSleep, Effect.resumeDetector])

/-- Model of `SpeakThen.stop` (source lines 314-319): clear the timer, stop
recognition, stop the detector, clear `started`.  Note that the session
`state` field is left untouched. -/
def stopST {μ ε τ : Type} (st : STState μ ε τ) : STState μ ε τ × List Effect :=
  ({ st with timerArmed := false, recog := recStop st.recog,
             det := st.det.stop, started := false },
   [Effect.clearTimer, Effect.recognitionStopped, Effect.detectorStopped])

/-- Errors a `SpeakThen.start` call can raise. -/
inductive StartError where
  | alreadyStarted
  | detectorAlreadyStarted
deriving DecidableEq, Repr

/-- Model of `SpeakThen.start` (source lines 280-290): throws `AlreadyStartedError`
when `started` is set, before any mutation; otherwise initializes and
starts the detector and sets `started`.  The session `state` field is
left untouched. -/
def startST {μ ε τ : Type} (st : STState μ ε τ) :
    STState μ ε τ × Option StartError :=
  if st.started then (st, some StartError.alreadyStarted)
  else
    match st.det.startD with
    | .error _ => (st, some StartError.detectorAlreadyStarted)
    | .ok d => ({ st with det := d, started := true }, none)

/-- Raw constructor configuration (source lines 239-250): `none` models
an absent key, `some 0` / `some ""` model present-but-falsy values. -/
structure RawConfig where
  basePath : Option String
  wakeModel : Option String
  confidence : Option ℚ
  sleepAfter : Option ℚ
  lang : Option String
deriving DecidableEq, Repr

/-- JavaScript `value || default` for a numeric config entry: an absent
or zero value yields the default. -/
def orDefaultNum (v : Option ℚ) (d : ℚ) : ℚ :=
  match v with
  | none => d
  | some x => if x = 0 then d else x

/-- JavaScript `value || default` for a string config entry: an absent
or empty value yields the default. -/
def orDefaultStr (v : Option String) (d : String) : String :=
  match v with
  | none => d
  | some s => if s = "" then d else s

/-- The resolved configuration held in `this.config`. -/
structure STConfig where
  basePath : String
  wakeModel : String
  confidence : ℚ
  sleepAfter : ℚ
  lang : String
deriving DecidableEq, Repr

/-- The default-application in the `SpeakThen` constructor (source lines
241-250), which uses `||` for every entry. -/
def buildConfig (c : RawConfig) : STConfig :=
  { basePath := orDefaultStr c.basePath "/models"
    wakeModel := orDefaultStr c.wakeModel "hey_jarvis_v0.1.onnx"
    confidence := orDefaultNum c.confidence (1 / 2)
    sleepAfter := orDefaultNum c.sleepAfter 5000
    lang := orDefaultStr c.lang "en-US" }

/-- Bool discriminator for detection-callback events. -/
def isDetect {μ ε : Type} : DetectorEvent μ ε → Bool
  | DetectorEvent.detect _ => true
  | _ => false

/-- Bool discriminator for the generic speech-observed callback. -/
def isSpeechObserved {τ : Type} : RecEvent τ → Bool
  | RecEvent.speechObserved _ => true
  | _ => false

/-- Every embedding-model run recorded in a trace used a full
76-frame window (a `MelWindow` is only materialized from a queue
holding at least 76 entries). -/
def embWindowsFull {μ ε : Type} (evs : List (DetectorEvent μ ε)) : Bool :=
  evs.all (fun e =>
    match e with
    | DetectorEvent.embRun w _ => w.length == MELSPEC_WINDOW
    | _ => true)

/-- Spec-side description of one iteration of the `processFrame` drain
loop, written from the spec's words: build the window from the 76
oldest queued mel frames, run the embedding model, enqueue the
resulting vector; when the embedding queue now holds at least 16
entries, run the classifier on its 16 most recent entries and invoke
the detection callback exactly when the score reaches the confidence
threshold, trimming the queue to its 16 most recent entries only when
it exceeds 32; then continue on the queue with its 8 oldest mel frames
discarded. -/
def melLoopStepRHS {μ ε : Type} (em : List μ → ε) (wm : List ε → ℚ) (c : ℚ)
    (mel : List μ) (eb : List ε) : List μ × List ε × List (DetectorEvent μ ε) :=
  let window := mel.take MELSPEC_WINDOW
  let v := em window
  let eb1 := eb ++ [v]
  let w16 := lastN eb1 16
  let score := wm w16
  let clsEvents :=
    if 16 ≤ eb1.length then
      DetectorEvent.clsRun w16 score ::
        (if c ≤ score then [DetectorEvent.detect score] else [])
    else []
  let eb2 :=
    if 16 ≤ eb1.length then (if 32 < eb1.length then lastN eb1 16 else eb1)
    else eb1
  let rest := melLoop em wm c (mel.drop 8) eb2
  (rest.1, rest.2.1, DetectorEvent.embRun window v :: (clsEvents ++ rest.2.2))

/-- Folding `processFrame` over a sequence of audio frames: the detector
states visible "at rest" between frame-processing calls. -/
def runFrames {ε : Type} (mr : List ℚ → List ℚ) (em : List (List ℚ) → ε)
    (wm : List ε → ℚ) (c : ℚ) :
    DetectorState (List ℚ) ε → List (List ℚ) → DetectorState (List ℚ) ε
  | st, [] => st
  | st, f :: fs => runFrames mr em wm c (processFrame mr em wm c st f).1 fs

/-- The detector state right after a successful `start` (both queues
empty, running and initialized set). -/
def startedDetector {μ ε : Type} : DetectorState μ ε :=
  { melFrames := [], embeddingBuffer := [], running := true, initialized := true }

/-! ### Helper lemmas about the drain loop -/

/-- One-step unfolding of the fuel-indexed drain loop at successor fuel. -/
theorem melLoopFuel_succ {μ ε : Type} (em : List μ → ε) (wm : List ε → ℚ)
    (c : ℚ) (f : Nat) (mel : List μ) (eb : List ε) :
    melLoopFuel em wm c (f + 1) mel eb =
      if MELSPEC_WINDOW ≤ mel.length then
        ((melLoopFuel em wm c f (mel.drop 8)
            (@classifierPhase ε μ wm c (eb ++ [em (mel.take MELSPEC_WINDOW)])).1).1,
         (melLoopFuel em wm c f (mel.drop 8)
            (@classifierPhase ε μ wm c (eb ++ [em (mel.take MELSPEC_WINDOW)])).1).2.1,
         DetectorEvent.embRun (mel.take MELSPEC_WINDOW) (em (mel.take MELSPEC_WINDOW)) ::
           ((@classifierPhase ε μ wm c (eb ++ [em (mel.take MELSPEC_WINDOW)])).2 ++
            (melLoopFuel em wm c f (mel.drop 8)
               (@classifierPhase ε μ wm c (eb ++ [em (mel.take MELSPEC_WINDOW)])).1).2.2))
      else (mel, eb, []) := rfl

/-- Adding fuel beyond what the loop can consume does not change the
result: with `mel.length ≤ 68 + 8 * f`, fuel `f` already runs the loop
to completion (every iteration needs 76 frames and discards 8). -/
theorem melLoopFuel_succ_of_le {μ ε : Type} (em : List μ → ε) (wm : List ε → ℚ)
    (c : ℚ) :
    ∀ (f : Nat) (mel : List μ) (eb : List ε), mel.length ≤ 68 + 8 * f →
      melLoopFuel em wm c (f + 1) mel eb = melLoopFuel em wm c f mel eb := by
  intro f
  induction f with
  | zero =>
    intro mel eb h
    have hlt : ¬ MELSPEC_WINDOW ≤ mel.length := by
      simp only [MELSPEC_WINDOW]; omega
    rw [melLoopFuel_succ, if_neg hlt]
    rfl
  | succ f ih =>
    intro mel eb h
    rw [melLoopFuel_succ em wm c (f + 1) mel eb, melLoopFuel_succ em wm c f mel eb]
    by_cases hw : MELSPEC_WINDOW ≤ mel.length
    · simp only [if_pos hw]
      rw [ih (mel.drop 8) _ (by simp only [List.length_drop]; omega)]
    · simp only [if_neg hw]

/-- Fuel irrelevance: any fuel at least `f` (with `f` already enough to
drain `mel`) computes the same result as fuel `f`. -/
theorem melLoopFuel_eq_of_le {μ ε : Type} (em : List μ → ε) (wm : List ε → ℚ)
    (c : ℚ) (f g : Nat) (mel : List μ) (eb : List ε)
    (hf : mel.length ≤ 68 + 8 * f) (hfg : f ≤ g) :
    melLoopFuel em wm c g mel eb = melLoopFuel em wm c f mel eb := by
  induction g with
  | zero =>
    have : f = 0 := Nat.le_zero.mp hfg
    simp [this]
  | succ g ih =>
    rcases Nat.lt_or_ge f (g + 1) with hlt | hge
    · have hfg' : f ≤ g := Nat.lt_succ_iff.mp hlt
      have hg : mel.length ≤ 68 + 8 * g := by omega
      rw [melLoopFuel_succ_of_le em wm c g mel eb hg, ih hfg']
    · have : f = g + 1 := Nat.le_antisymm hfg hge
      simp [this]

/-- The drain loop, entered with at least 76 queued mel frames, performs
exactly the iteration described by `melLoopStepRHS`. -/
theorem melLoop_step {μ ε : Type} (em : List μ → ε) (wm : List ε → ℚ) (c : ℚ)
    (mel : List μ) (eb : List ε) (h : MELSPEC_WINDOW ≤ mel.length) :
    melLoop em wm c mel eb = melLoopStepRHS em wm c mel eb := by
  have h76 : 76 ≤ mel.length := by simpa [MELSPEC_WINDOW] using h
  have h1 : (mel.drop 8).length ≤ 68 + 8 * (mel.drop 8).length := by omega
  have h2 : (mel.drop 8).length ≤ mel.length - 1 := by
    simp only [List.length_drop]; omega
  have hn : mel.length = (mel.length - 1) + 1 := by omega
  have hfuel := melLoopFuel_eq_of_le em wm c ((mel.drop 8).length)
      (mel.length - 1) (mel.drop 8)
      (@classifierPhase ε μ wm c (eb ++ [em (mel.take MELSPEC_WINDOW)])).1 h1 h2
  show melLoopFuel em wm c mel.length mel eb = _
  rw [hn, melLoopFuel_succ, if_pos h, hfuel]
  show ((melLoop em wm c (mel.drop 8) _).1, (melLoop em wm c (mel.drop 8) _).2.1,
      DetectorEvent.embRun _ _ :: (_ ++ (melLoop em wm c (mel.drop 8) _).2.2)) = _
  simp only [melLoopStepRHS, classifierPhase]
  by_cases h16 : 16 ≤ (eb ++ [em (mel.take MELSPEC_WINDOW)]).length
  · simp only [if_pos h16]
  · simp only [if_neg h16]

/-- Events produced by the classifier block never include an
embedding-model run. -/
theorem embWindowsFull_classifierPhase {μ ε : Type} (wm : List ε → ℚ) (c : ℚ)
    (eb : List ε) : embWindowsFull (@classifierPhase ε μ wm c eb).2 = true := by
  unfold classifierPhase embWindowsFull
  by_cases h16 : 16 ≤ eb.length
  · by_cases hs : c ≤ wm (lastN eb 16)
    · simp [h16, hs]
    · simp [h16, hs]
  · simp [h16]

/-- With enough fuel to drain the queue, the drain loop leaves fewer
than 76 mel frames and every embedding-model run it performed used a
full 76-frame window. -/
theorem melLoopFuel_drain {μ ε : Type} (em : List μ → ε) (wm : List ε → ℚ)
    (c : ℚ) :
    ∀ (f : Nat) (mel : List μ) (eb : List ε), mel.length ≤ 68 + 8 * f →
      (melLoopFuel em wm c f mel eb).1.length < MELSPEC_WINDOW ∧
      embWindowsFull (melLoopFuel em wm c f mel eb).2.2 = true := by
  intro f
  induction f with
  | zero =>
    intro mel eb h
    refine ⟨?_, by simp [melLoopFuel, embWindowsFull]⟩
    show mel.length < MELSPEC_WINDOW
    simp only [MELSPEC_WINDOW]; omega
  | succ f ih =>
    intro mel eb h
    rw [melLoopFuel_succ]
    by_cases hw : MELSPEC_WINDOW ≤ mel.length
    · simp only [if_pos hw]
      have hrec := ih (mel.drop 8)
          (@classifierPhase ε μ wm c (eb ++ [em (mel.take MELSPEC_WINDOW)])).1
          (by simp only [List.length_drop]; omega)
      refine ⟨hrec.1, ?_⟩
      have hwin : (mel.take MELSPEC_WINDOW).length = MELSPEC_WINDOW := by
        simp only [List.length_take]
        omega
      have hcls := @embWindowsFull_classifierPhase μ ε wm c
        (eb ++ [em (mel.take MELSPEC_WINDOW)])
      simp only [embWindowsFull, List.all_cons, List.all_append,
        Bool.and_eq_true] at hcls hrec ⊢
      exact ⟨by simp [hwin], hcls, hrec.2⟩
    · simp only [if_neg hw]
      refine ⟨?_, by simp [embWindowsFull]⟩
      show mel.length < MELSPEC_WINDOW
      omega


/-- The embedding queue leaving the classifier block: trimmed to its 16
most recent entries exactly when it held more than 32, untouched
otherwise. -/
theorem classifierPhase_fst {μ ε : Type} (wm : List ε → ℚ) (c : ℚ)
    (eb : List ε) :
    (@classifierPhase ε μ wm c eb).1 = if 32 < eb.length then lastN eb 16 else eb := by
  unfold classifierPhase
  by_cases h16 : 16 ≤ eb.length
  · simp [h16]
  · have h32 : ¬ 32 < eb.length := by omega
    simp [h16, h32]

/-- The drain loop keeps the embedding queue at no more than 32 entries:
each iteration appends one vector and the classifier block trims the
queue back to 16 as soon as it exceeds 32. -/
theorem melLoopFuel_eb_le {μ ε : Type} (em : List μ → ε) (wm : List ε → ℚ)
    (c : ℚ) :
    ∀ (f : Nat) (mel : List μ) (eb : List ε), eb.length ≤ 32 →
      (melLoopFuel em wm c f mel eb).2.1.length ≤ 32 := by
  intro f
  induction f with
  | zero =>
    intro mel eb h
    simpa [melLoopFuel] using h
  | succ f ih =>
    intro mel eb h
    rw [melLoopFuel_succ]
    by_cases hw : MELSPEC_WINDOW ≤ mel.length
    · simp only [if_pos hw]
      apply ih
      rw [classifierPhase_fst]
      by_cases h32 : 32 < (eb ++ [em (mel.take MELSPEC_WINDOW)]).length
      · simp only [if_pos h32, lastN, List.length_drop]
        omega
      · simp only [if_neg h32]
        simp only [List.length_append, List.length_cons, List.length_nil] at h32 ⊢
        omega
    · simp only [if_neg hw]
      exact h

/-- Each `processFrame` call preserves the 32-entry bound on the embedding queue. -/
theorem processFrame_eb_le {ε : Type} (mr : List ℚ → List ℚ)
    (em : List (List ℚ) → ε) (wm : List ε → ℚ) (c : ℚ)
    (st : DetectorState (List ℚ) ε) (samples : List ℚ)
    (h : st.embeddingBuffer.length ≤ 32) :
    (processFrame mr em wm c st samples).1.embeddingBuffer.length ≤ 32 := by
  simpa [processFrame, melLoop] using
    melLoopFuel_eb_le em wm c
      (st.melFrames ++ melChunks (mr samples)).length
      (st.melFrames ++ melChunks (mr samples)) st.embeddingBuffer h

/-- The 32-entry bound is an invariant of every run of `processFrame`
calls. -/
theorem runFrames_eb_le {ε : Type} (mr : List ℚ → List ℚ)
    (em : List (List ℚ) → ε) (wm : List ε → ℚ) (c : ℚ) :
    ∀ (frames : List (List ℚ)) (st : DetectorState (List ℚ) ε),
      st.embeddingBuffer.length ≤ 32 →
      (runFrames mr em wm c st frames).embeddingBuffer.length ≤ 32 := by
  intro frames
  induction frames with
  | nil =>
    intro st h
    simpa [runFrames] using h
  | cons f fs ih =>
    intro st h
    simp only [runFrames]
    exact ih _ (processFrame_eb_le mr em wm c st f h)

/-! ### Claim theorems -/

/-- Claim C1: when the `processFrame` drain loop is entered with the mel
queue holding at least 76 entries, each iteration builds the
embedding-model input from exactly the 76 oldest queued mel frames
(`mel.take MELSPEC_WINDOW`, a full-width window by the second conjunct),
enqueues the resulting embedding vector, then discards exactly the 8
oldest mel frames (`mel.drop 8`, third conjunct) — overlapping windows,
hop 8, width 76; and whenever the embedding queue holds at least 16
entries the classifier runs on exactly its 16 most recent entries
(`lastN _ 16`) and the detection callback is invoked with the scalar
score if and only if the score is at least the configured confidence
threshold, as spelled out by `melLoopStepRHS`. -/
theorem mel_hop_window_classifier_semantics {μ ε : Type} (em : List μ → ε)
    (wm : List ε → ℚ) (c : ℚ) (mel : List μ) (eb : List ε)
    (h : MELSPEC_WINDOW ≤ mel.length) :
    melLoop em wm c mel eb = melLoopStepRHS em wm c mel eb ∧
    (mel.take MELSPEC_WINDOW).length = MELSPEC_WINDOW ∧
    (mel.drop 8).length = mel.length - 8 := by
  refine ⟨melLoop_step em wm c mel eb h, ?_, by simp⟩
  simp only [List.length_take]
  simp only [MELSPEC_WINDOW] at h ⊢
  omega

/-- Witness for C1 at a concrete 76-frame queue. -/
theorem mel_hop_window_classifier_semantics_witness :
    MELSPEC_WINDOW ≤ (List.replicate 76 ()).length ∧
    (melLoop (fun _ => ()) (fun _ => (0 : ℚ)) 0 (List.replicate 76 ()) [] =
       melLoopStepRHS (fun _ => ()) (fun _ => (0 : ℚ)) 0 (List.replicate 76 ()) [] ∧
     ((List.replicate 76 ()).take MELSPEC_WINDOW).length = MELSPEC_WINDOW ∧
     ((List.replicate 76 ()).drop 8).length = (List.replicate 76 ()).length - 8) :=
  ⟨by decide,
   mel_hop_window_classifier_semantics (fun _ => ()) (fun _ => (0 : ℚ)) 0
     (List.replicate 76 ()) [] (by decide)⟩

/-- Claim C2: on every return from `processFrame` the mel queue has been
drained below 76 entries, and every embedding-model run recorded in the
call's trace (a materialized `MelWindow`) used a full 76-frame window,
i.e. windows are only materialized while the queue holds at least 76
entries. -/
theorem processFrame_drains_mel_queue {ε : Type} (mr : List ℚ → List ℚ)
    (em : List (List ℚ) → ε) (wm : List ε → ℚ) (c : ℚ)
    (st : DetectorState (List ℚ) ε) (samples : List ℚ) :
    (processFrame mr em wm c st samples).1.melFrames.length < MELSPEC_WINDOW ∧
    embWindowsFull (processFrame mr em wm c st samples).2 = true := by
  have h := melLoopFuel_drain em wm c
      (st.melFrames ++ melChunks (mr samples)).length
      (st.melFrames ++ melChunks (mr samples)) st.embeddingBuffer (by omega)
  simpa [processFrame, melLoop] using h

/-- Witness for C2 on a concrete call. -/
theorem processFrame_drains_mel_queue_witness :
    (processFrame (fun _ => []) (fun _ => ()) (fun _ => (0 : ℚ)) 0
        ⟨List.replicate 80 ([] : List ℚ), [], true, true⟩ []).1.melFrames.length <
      MELSPEC_WINDOW ∧
    embWindowsFull (processFrame (fun _ => []) (fun _ => ()) (fun _ => (0 : ℚ)) 0
        ⟨List.replicate 80 ([] : List ℚ), [], true, true⟩ []).2 = true :=
  processFrame_drains_mel_queue (fun _ => []) (fun _ => ()) (fun _ => (0 : ℚ)) 0
    ⟨List.replicate 80 ([] : List ℚ), [], true, true⟩ []

/-- Claim C3: starting from the state produced by `WakeWordDetector.start`
(empty queues), the embedding queue holds at most 32 entries at rest
after any sequence of `processFrame` calls; and the classifier block
trims the queue to exactly its 16 most recent entries precisely when its
length exceeds 32, leaving it untouched otherwise (the asymmetric 16-32
hysteresis band, not a strict 16-entry sliding window). -/
theorem embedding_queue_hysteresis {ε : Type} (mr : List ℚ → List ℚ)
    (em : List (List ℚ) → ε) (wm : List ε → ℚ) (c : ℚ) :
    ((initialDetector : DetectorState (List ℚ) ε).startD =
        Except.ok startedDetector) ∧
    (∀ frames : List (List ℚ),
        (runFrames mr em wm c startedDetector frames).embeddingBuffer.length ≤ 32) ∧
    (∀ eb : List ε, (@classifierPhase ε (List ℚ) wm c eb).1 =
        if 32 < eb.length then lastN eb 16 else eb) := by
  refine ⟨rfl, ?_, fun eb => classifierPhase_fst wm c eb⟩
  intro frames
  exact runFrames_eb_le mr em wm c frames startedDetector (by simp [startedDetector])

/-- Claim C4: `wake()` and `sleep()` are idempotent.  A second `wake()` in
the awake state changes nothing and produces no effects (no `onWake`, no
detector pause, no timer re-arm), and symmetrically for `sleep()`; per
logical transition the `onWake`/`onSleep` callbacks, the detector
pause/resume, and the timer arm each occur exactly once. -/
theorem wake_sleep_idempotent {μ ε τ : Type} (sr : Bool) (st : STState μ ε τ) :
    wakeST sr (wakeST sr st).1 = ((wakeST sr st).1, []) ∧
    sleepST (sleepST st).1 = ((sleepST st).1, []) ∧
    (wakeST sr st).2.count Effect.onWake =
      (if st.state = SessionState.awake then 0 else 1) ∧
    (wakeST sr st).2.count Effect.pauseDetector =
      (if st.state = SessionState.awake then 0 else 1) ∧
    (wakeST sr st).2.count Effect.armTimer =
      (if st.state = SessionState.awake then 0 else 1) ∧
    (sleepST st).2.count Effect.onSleep =
      (if st.state = SessionState.sleeping then 0 else 1) ∧
    (sleepST st).2.count Effect.resumeDetector =
      (if st.state = SessionState.sleeping then 0 else 1) := by
  have idemW : ∀ u : STState μ ε τ, u.state = SessionState.awake →
      wakeST sr u = (u, []) := by
    intro u hu
    unfold wakeST
    rw [if_pos hu]
  have idemS : ∀ u : STState μ ε τ, u.state = SessionState.sleeping →
      sleepST u = (u, []) := by
    intro u hu
    unfold sleepST
    rw [if_pos hu]
  have hw : (wakeST sr st).1.state = SessionState.awake := by
    unfold wakeST
    by_cases h : st.state = SessionState.awake
    · simp [h]
    · simp [h]
  have hs : (sleepST st).1.state = SessionState.sleeping := by
    unfold sleepST
    by_cases h : st.state = SessionState.sleeping
    · simp [h]
    · simp [h]
  refine ⟨idemW _ hw, idemS _ hs, ?_, ?_, ?_, ?_, ?_⟩
  · by_cases h : st.state = SessionState.awake
    · simp [wakeST, h]
    · cases sr <;> simp [wakeST, h, recStart]
  · by_cases h : st.state = SessionState.awake
    · simp [wakeST, h]
    · cases sr <;> simp [wakeST, h, recStart]
  · by_cases h : st.state = SessionState.awake
    · simp [wakeST, h]
    · cases sr <;> simp [wakeST, h, recStart]
  · by_cases h : st.state = SessionState.sleeping
    · simp [sleepST, h]
    · simp [sleepST, h]
  · by_cases h : st.state = SessionState.sleeping
    · simp [sleepST, h]
    · simp [sleepST, h]

/-- Claim C5 (the code evaluated at the failing input): from a started,
awake session — detector paused by `wake()`, recognizer running — calling
`stop()` and then `start()` raises nothing (`none`), yet the session
state is still `awake` rather than `sleeping`: neither `stop()` nor
`start()` ever resets the `state` field. -/
theorem stop_start_leaves_session_awake :
    ((startST ((stopST (⟨SessionState.awake, true, true,
        ⟨[], [], false, true⟩, ⟨[], true, true⟩⟩ : STState Unit Unit Unit)).1)).2
      = none) ∧
    ((startST ((stopST (⟨SessionState.awake, true, true,
        ⟨[], [], false, true⟩, ⟨[], true, true⟩⟩ : STState Unit Unit Unit)).1)).1.state
      = SessionState.awake) := by
  decide

/-- Claim C6 (the code evaluated at the failing input): `processFrame`
never consults `running`, so a frame whose inference is in flight when
`pause()` intervenes still invokes the detection callback on completion:
on a paused detector (`running = false`, first conjunct) the pending
`processFrame` continuation still emits a `detect` event (second
conjunct), even though a frame arriving after the pause would be dropped
at message delivery (third conjunct). -/
theorem detection_delivered_while_paused :
    ((DetectorState.pause (⟨List.replicate 76 ([] : List ℚ), List.replicate 15 (),
        true, true⟩ : DetectorState (List ℚ) Unit)).running = false) ∧
    ((processFrame (fun _ => []) (fun _ => ()) (fun _ => (1 : ℚ)) 0
        (DetectorState.pause ⟨List.replicate 76 ([] : List ℚ), List.replicate 15 (),
          true, true⟩) []).2.countP isDetect = 1) ∧
    (deliverFrame (fun _ => []) (fun _ => ()) (fun _ => (1 : ℚ)) 0
        (DetectorState.pause ⟨List.replicate 76 ([] : List ℚ),
          List.replicate 15 (), true, true⟩) []
      = (DetectorState.pause ⟨List.replicate 76 ([] : List ℚ),
          List.replicate 15 (), true, true⟩, [])) := by
  refine ⟨rfl, by decide, by decide⟩

/-- Claim C8: a second `start()` on an instance whose first `start()`
succeeded raises `AlreadyStartedError` and returns the state of the
first call unchanged (the `started` check precedes every mutation). -/
theorem start_twice_raises {μ ε τ : Type} (st : STState μ ε τ)
    (h : (startST st).2 = none) :
    startST (startST st).1 = ((startST st).1, some StartError.alreadyStarted) := by
  by_cases hs : st.started = true
  · exfalso
    unfold startST at h
    rw [if_pos hs] at h
    simp at h
  · unfold startST at h
    rw [if_neg hs] at h
    cases hd : st.det.startD with
    | error e =>
      rw [hd] at h
      simp at h
    | ok d =>
      have h1 : startST st = ({ st with det := d, started := true }, none) := by
        unfold startST
        rw [if_neg hs, hd]
      rw [h1]
      simp [startST]

/-- Witness for C8: a fresh never-started instance. -/
theorem start_twice_raises_witness :
    ((startST (⟨SessionState.sleeping, false, false,
        ⟨[], [], false, false⟩, ⟨[], false, false⟩⟩ : STState Unit Unit Unit)).2
      = none) ∧
    (startST (startST (⟨SessionState.sleeping, false, false,
        ⟨[], [], false, false⟩, ⟨[], false, false⟩⟩ : STState Unit Unit Unit)).1 =
      ((startST (⟨SessionState.sleeping, false, false,
          ⟨[], [], false, false⟩, ⟨[], false, false⟩⟩ : STState Unit Unit Unit)).1,
        some StartError.alreadyStarted)) :=
  ⟨by decide,
   start_twice_raises (⟨SessionState.sleeping, false, false,
      ⟨[], [], false, false⟩, ⟨[], false, false⟩⟩ : STState Unit Unit Unit) (by decide)⟩

/-- Claim C9: with the speech-recognition capability unavailable,
`CommandRecognizer.start` reports through the error callback and returns
with the registry untouched (no throw: it returns normally); `wake()`
still transitions the session to awake and surfaces exactly one
`onError` carrying the unsupported message; registered commands survive
unchanged; and since no recognition session ever becomes active, no
transcript is ever delivered, hence no command is ever dispatched. -/
theorem sr_unavailable_degrades {μ ε τ : Type} (rc : RecognizerState τ)
    (st : STState μ ε τ) (t : String) :
    recStart false rc = (rc, [Effect.onError srUnsupportedMsg]) ∧
    (wakeST false st).1.state = SessionState.awake ∧
    ((wakeST false st).2.count (Effect.onError srUnsupportedMsg) =
       if st.state = SessionState.awake then 0 else 1) ∧
    (wakeST false st).1.recog.commands = st.recog.commands ∧
    (wakeST false st).1.recog.recognitionActive = st.recog.recognitionActive ∧
    deliverTranscript { rc with recognitionActive := false } t = [] := by
  refine ⟨by simp [recStart], ?_, ?_, ?_, ?_, by simp [deliverTranscript]⟩
  · by_cases h : st.state = SessionState.awake
    · simp [wakeST, h]
    · simp [wakeST, h]
  · by_cases h : st.state = SessionState.awake
    · simp [wakeST, h]
    · simp [wakeST, h, recStart]
  · by_cases h : st.state = SessionState.awake
    · simp [wakeST, h]
    · simp [wakeST, h, recStart]
  · by_cases h : st.state = SessionState.awake
    · simp [wakeST, h]
    · simp [wakeST, h, recStart]

/-- Spec-side description of transcript dispatch, written from the
spec's words: every registered phrase that is a substring of the
normalized transcript dispatches to every target registered for that
phrase, phrases in registry (insertion) order, targets in registration
order. -/
def dispatchSpec {τ : Type} (cmds : List (String × List τ))
    (transcript : String) : List (RecEvent τ) :=
  (cmds.filter (fun q => strIncludes transcript q.1)).flatMap
    (fun q => q.2.map (fun el => RecEvent.dispatch q.1 el transcript))

/-- The iteration order of the `onresult` dispatch loop coincides with
the declarative filter/flat-map description. -/
theorem dispatchAll_eq_spec {τ : Type} (tr : String) :
    ∀ cmds : List (String × List τ), dispatchAll tr cmds = dispatchSpec cmds tr := by
  intro cmds
  induction cmds with
  | nil => rfl
  | cons q rest ih =>
    obtain ⟨phrase, els⟩ := q
    by_cases hm : strIncludes tr phrase
    · simp [dispatchAll, dispatchSpec, List.filter_cons, hm, ih]
    · simp [dispatchAll, dispatchSpec, List.filter_cons, hm, ih]

/-- The dispatch loop never emits a speech-observed event. -/
theorem dispatchAll_no_speech {τ : Type} (tr : String) :
    ∀ cmds : List (String × List τ),
      (dispatchAll tr cmds).countP isSpeechObserved = 0 := by
  intro cmds
  induction cmds with
  | nil => rfl
  | cons q rest ih =>
    obtain ⟨phrase, els⟩ := q
    by_cases hm : strIncludes tr phrase
    · simp only [dispatchAll, hm, if_true, List.countP_append, ih, Nat.add_zero]
      induction els with
      | nil => rfl
      | cons e es ihe =>
        simp only [List.map_cons, List.countP_cons, isSpeechObserved] at ihe ⊢
        simpa using ihe
    · simpa [dispatchAll, hm] using ih

/-- Updating every entry whose key matches leaves lookups of that key
pointing at the appended target list. -/
theorem find?_update {τ : Type} (key : String) (el : τ) :
    ∀ cmds : List (String × List τ),
      ((cmds.map (fun q => if q.1 == key then (q.1, q.2 ++ [el]) else q)).find?
          (fun q => q.1 == key)) =
        (cmds.find? (fun q => q.1 == key)).map (fun q => (q.1, q.2 ++ [el])) := by
  intro cmds
  induction cmds with
  | nil => rfl
  | cons q rest ih =>
    simp only [List.map_cons]
    by_cases hq : (q.1 == key) = true
    · rw [if_pos hq]
      simp only [List.find?]
      simp [hq]
    · rw [if_neg hq]
      have hq2 : (q.1 == key) = false := by simpa using hq
      simp only [List.find?, hq2]
      exact ih

/-- Searching skips a block in which nothing satisfies the predicate. -/
theorem find?_append_of_none {α : Type} (p : α → Bool) :
    ∀ (l₁ l₂ : List α), l₁.find? p = none →
      (l₁ ++ l₂).find? p = l₂.find? p := by
  intro l₁ l₂ h
  induction l₁ with
  | nil => simp
  | cons a l ih =>
    by_cases ha : p a
    · rw [List.find?_cons_of_pos _ ha] at h
      exact absurd h (by simp)
    · rw [List.find?_cons_of_neg _ ha] at h
      simpa [List.find?_cons_of_neg _ ha] using ih h

/-- Registration followed by a lookup of the normalized phrase returns the
previous targets with the new one appended (in registration order). -/
theorem lookup_registerCmd {τ : Type} (cmds : List (String × List τ))
    (p : String) (el : τ) :
    lookupCmd (registerCmd cmds p el) p.toLower =
      some ((lookupCmd cmds p.toLower).getD [] ++ [el]) := by
  unfold registerCmd lookupCmd
  cases hf : cmds.find? (fun q => q.1 == p.toLower) with
  | none =>
    simp only [hf, Option.isSome_none, Bool.false_eq_true, if_false,
      Option.map_none, Option.getD_none]
    rw [find?_append_of_none _ cmds _ hf]
    simp [List.find?_cons]
  | some q0 =>
    simp only [hf, Option.isSome_some, if_true]
    rw [find?_update p.toLower el cmds, hf]
    simp

/-- Claim C7: the `onresult` handler normalizes the transcript (trim then
lowercase), dispatches — for every registered phrase that is a substring
of the normalized transcript — to every target registered for that
phrase in registration order (registry order across phrases, so several
independent phrases can match one transcript), and invokes the generic
speech-observed callback exactly once whether or not anything matched;
and `register` appends the new target to the normalized phrase's target
list, preserving registration order. -/
theorem onResult_semantics {τ : Type} (cmds : List (String × List τ))
    (t p : String) (el : τ) :
    onResult cmds t =
      dispatchSpec cmds (normalizeTranscript t) ++
        [RecEvent.speechObserved (normalizeTranscript t)] ∧
    (onResult cmds t).countP isSpeechObserved = 1 ∧
    lookupCmd (registerCmd cmds p el) p.toLower =
      some ((lookupCmd cmds p.toLower).getD [] ++ [el]) := by
  refine ⟨?_, ?_, lookup_registerCmd cmds p el⟩
  · show dispatchAll (normalizeTranscript t) cmds ++ _ = _
    rw [dispatchAll_eq_spec]
  · show (dispatchAll (normalizeTranscript t) cmds ++
        [RecEvent.speechObserved (normalizeTranscript t)]).countP isSpeechObserved = 1
    rw [List.countP_append, dispatchAll_no_speech]
    rfl

/-- Claim C10: the constructor applies defaults with logical-or, so a
configured `confidence` of exactly `0` or `sleepAfter` of exactly `0`
(both falsy) is silently replaced by the default (`0.5` resp. `5000`),
just as an absent entry is; consequently no configuration can produce a
confidence threshold or inactivity timeout of exactly `0`. -/
theorem config_defaults_swallow_falsy (raw : RawConfig) :
    (buildConfig { raw with confidence := some 0, sleepAfter := some 0 }).confidence
        = 1 / 2 ∧
    (buildConfig { raw with confidence := some 0, sleepAfter := some 0 }).sleepAfter
        = 5000 ∧
    (buildConfig { raw with confidence := none, sleepAfter := none }).confidence
        = 1 / 2 ∧
    (buildConfig { raw with confidence := none, sleepAfter := none }).sleepAfter
        = 5000 ∧
    decide ((buildConfig raw).confidence = 0) = false ∧
    decide ((buildConfig raw).sleepAfter = 0) = false := by
  refine ⟨by simp [buildConfig, orDefaultNum], by simp [buildConfig, orDefaultNum],
          by simp [buildConfig, orDefaultNum], by simp [buildConfig, orDefaultNum],
          ?_, ?_⟩
  · simp only [decide_eq_false_iff_not, buildConfig, orDefaultNum]
    cases raw.confidence with
    | none => norm_num
    | some x =>
      by_cases hx : x = 0
      · simp [hx]
      · simp [hx]
  · simp only [decide_eq_false_iff_not, buildConfig, orDefaultNum]
    cases raw.sleepAfter with
    | none => norm_num
    | some x =>
      by_cases hx : x = 0
      · simp [hx]
      · simp [hx]

end SpeakThen
